import Mathlib

/-!
Shallow embedding of the DDD concept-drift ensemble controller
(src/ensemble_methods/ddd.py) and proofs about it.

Modelling conventions:
* float arithmetic is modelled exactly over the rationals; the single
  square root computed by the code (np.sqrt in PrequentialMetrics.update)
  is modelled as the real square root, so the stored std field is a real;
* label batches are lists of integers, feature rows are lists of rationals;
* the external online-learner and drift-detector capabilities are modelled
  as records of pure functions over an abstract carrier of internal state;
* code that can raise (division by zero on an empty batch, attribute access
  on an absent old population, calling a None detector factory) is modelled
  with Except.
-/

/-- Errors of the modelled code paths: division by zero on an empty batch
(InvalidInput), predicting or updating old populations that are absent
(NotReadyError), predicting before any fit (NotFittedError), and calling
the None drift-detector argument in the constructor (TypeError). -/
inductive DDDError where
  | invalidInput
  | notFitted
  | notReady
  | typeError
deriving DecidableEq

/-- np.sum(y_pred == y_true) for equal-length label arrays: the number of
positions where the two lists agree. -/
def countCorrect (y_pred y_true : List ℤ) : ℕ :=
  (List.zipWith (fun a b => decide (a = b)) y_pred y_true).count true

/-- State of PrequentialMetrics (ddd.py lines 94-128). acc, var are exact
rationals; std stores the real square root the code keeps in self.std. -/
structure PrequentialMetrics where
  acc : ℚ
  var : ℚ
  std : ℝ
  t : ℕ
  t_drift : ℕ

/-- PrequentialMetrics.__init__: acc = 1, var = 0, std = 0, t = 0, t_drift = 0. -/
def PrequentialMetrics.init : PrequentialMetrics :=
  { acc := 1, var := 0, std := 0, t := 0, t_drift := 0 }

/-- PrequentialMetrics.update (ddd.py lines 102-128), total version: t grows
by the batch length, batch accuracy is the fraction of correct predictions,
and the drift flag selects between resetting the running average and the
decaying update.  The divisor t - t_drift + 1 uses the already-updated t,
computed with integer (not truncated) subtraction, as in Python. -/
noncomputable def PrequentialMetrics.update (m : PrequentialMetrics)
    (y_pred y_true : List ℤ) (drift : Bool) : PrequentialMetrics :=
  let n := y_pred.length
  let t' := m.t + n
  let batch_accuracy : ℚ := (countCorrect y_pred y_true : ℚ) / (n : ℚ)
  if drift then
    let v := batch_accuracy * (1 - batch_accuracy) / (n : ℚ)
    { acc := batch_accuracy, var := v, std := Real.sqrt v, t := t', t_drift := t' }
  else
    let acc' := m.acc + (batch_accuracy - m.acc) / ((t' : ℚ) - (m.t_drift : ℚ) + 1)
    let v := acc' * (1 - acc') / ((t' : ℚ) - (m.t_drift : ℚ) + 1)
    { acc := acc', var := v, std := Real.sqrt v, t := t', t_drift := m.t_drift }

/-- Division that records the divide-by-zero fault a zero denominator would
raise in the source. -/
def qdivE (a b : ℚ) : Except DDDError ℚ :=
  if b = 0 then Except.error DDDError.invalidInput else Except.ok (a / b)

/-- PrequentialMetrics.update with every division checked: the only fault of
the method is a zero divisor, and on an empty batch the batch-accuracy
division divides by n = 0. -/
noncomputable def PrequentialMetrics.updateE (m : PrequentialMetrics)
    (y_pred y_true : List ℤ) (drift : Bool) : Except DDDError PrequentialMetrics :=
  let n := y_pred.length
  let t' := m.t + n
  match qdivE (countCorrect y_pred y_true : ℚ) (n : ℚ) with
  | Except.error e => Except.error e
  | Except.ok batch_accuracy =>
    if drift then
      match qdivE (batch_accuracy * (1 - batch_accuracy)) (n : ℚ) with
      | Except.error e => Except.error e
      | Except.ok v =>
        Except.ok { acc := batch_accuracy, var := v, std := Real.sqrt v,
                    t := t', t_drift := t' }
    else
      match qdivE (batch_accuracy - m.acc) ((t' : ℚ) - (m.t_drift : ℚ) + 1) with
      | Except.error e => Except.error e
      | Except.ok inc =>
        let acc' := m.acc + inc
        match qdivE (acc' * (1 - acc')) ((t' : ℚ) - (m.t_drift : ℚ) + 1) with
        | Except.error e => Except.error e
        | Except.ok v =>
          Except.ok { acc := acc', var := v, std := Real.sqrt v,
                      t := t', t_drift := m.t_drift }

/-- Score matrix returned by predict_proba: one-dimensional (binary decision
scores) or two-dimensional (n_samples rows of per-class scores). -/
inductive Scores where
  | one : List ℚ → Scores
  | two : List (List ℚ) → Scores

/-- Scalar multiplication of a score matrix. -/
def Scores.smul (w : ℚ) : Scores → Scores
  | Scores.one s => Scores.one (s.map (fun v => w * v))
  | Scores.two s => Scores.two (s.map (fun row => row.map (fun v => w * v)))

/-- Pointwise sum of two score matrices of the same rank; summands of
different rank (which numpy would broadcast) are outside the modelled
behaviour and the left operand is returned. -/
def Scores.add : Scores → Scores → Scores
  | Scores.one a, Scores.one b => Scores.one (List.zipWith (· + ·) a b)
  | Scores.two a, Scores.two b =>
      Scores.two (List.zipWith (fun r1 r2 => List.zipWith (· + ·) r1 r2) a b)
  | a, _ => a

/-- Index of the first maximal entry of a row, as np.argmax computes it
(0 for an empty row). -/
def argmaxIdx (l : List ℚ) : ℕ :=
  match l with
  | [] => 0
  | x :: xs =>
    (xs.foldl (fun st v =>
      let i := st.1 + 1
      if st.2.1 < v then (i, v, i) else (i, st.2.1, st.2.2)) ((0 : ℕ), x, (0 : ℕ))).2.2

/-- DDD.__scores_to_single_label (ddd.py lines 200-205): one-dimensional
scores are thresholded at 0 (score > 0 gives label 1, else 0); otherwise
the arg-max over classes of each row is taken. -/
def scoresToSingleLabel : Scores → List ℤ
  | Scores.one s => s.map (fun v => if 0 < v then (1 : ℤ) else 0)
  | Scores.two s => s.map (fun row => (argmaxIdx row : ℤ))

/-- The opaque online-learner capability (update / predict / predict_proba)
over an abstract internal-state carrier. -/
structure LearnerOps (X σ : Type) where
  predict : σ → X → List ℤ
  predictProba : σ → X → Scores
  update : σ → X → List ℤ → σ

/-- The opaque stateful drift-detector capability:
drift_detection(y_true, y_pred) returns the updated internal state and the
drift boolean. -/
structure DetectorOps (δ : Type) where
  detect : δ → List ℤ → List ℤ → δ × Bool

/-- DDD.__weighted_majority (ddd.py lines 169-185): the weighted sum of the
predict_proba outputs of the new-low, old-low and old-high learners,
converted to hard labels.  The new-high learner takes no part. -/
def weightedMajority {X σ : Type} (ops : LearnerOps X σ) (x : X)
    (hnl hol hoh : σ) (wnl wol woh : ℚ) : List ℤ :=
  scoresToSingleLabel
    (Scores.add
      (Scores.add (Scores.smul wnl (ops.predictProba hnl x))
                  (Scores.smul wol (ops.predictProba hol x)))
      (Scores.smul woh (ops.predictProba hoh x)))

/-- State of one DDD controller (ddd.py lines 131-273).  The slots for the
old populations are Options: they hold None until the first drift.  The
fields initLow and initHigh model the constructor arguments pl and ph fed
to the ensemble factory: DDD.__init_ensemble rebuilds learners from the
same configuration each time, modelled as these fixed fresh values. -/
structure DDDState (σ δ : Type) where
  W : ℚ
  initLow : σ
  initHigh : σ
  mode_before_drift : Bool
  drift : Bool
  low_diversity_learner : σ
  high_diversity_learner : σ
  old_low_diversity_learner : Option σ
  old_high_diversity_learner : Option σ
  metric_ol : PrequentialMetrics
  metric_oh : PrequentialMetrics
  metric_nl : PrequentialMetrics
  metric_nh : PrequentialMetrics
  wnl : ℚ
  wol : ℚ
  woh : ℚ
  y_pred : Option (List ℤ)
  detector : δ

/-- DDD.__init__ (ddd.py lines 160-167): mode_before_drift is true, drift is
false, old populations are None, all four metrics are fresh, the weights are
0 and no prediction is stored yet. -/
def DDDState.mkInit {σ δ : Type} (W : ℚ) (initLow initHigh : σ) (d : δ) :
    DDDState σ δ :=
  { W := W, initLow := initLow, initHigh := initHigh,
    mode_before_drift := true, drift := false,
    low_diversity_learner := initLow, high_diversity_learner := initHigh,
    old_low_diversity_learner := none, old_high_diversity_learner := none,
    metric_ol := PrequentialMetrics.init, metric_oh := PrequentialMetrics.init,
    metric_nl := PrequentialMetrics.init, metric_nh := PrequentialMetrics.init,
    wnl := 0, wol := 0, woh := 0, y_pred := none, detector := d }

/-- DDD.predict (ddd.py lines 207-219).  Before drift the low-diversity
learner predicts alone; after drift the weights are recomputed from the
current accuracies and the weighted majority of new-low, old-low and
old-high votes.  The prediction is stored in y_pred.  Reading an absent old
population raises, modelled as notReady. -/
def DDDState.predict {X σ δ : Type} (ops : LearnerOps X σ) (s : DDDState σ δ)
    (x : X) : Except DDDError (List ℤ × DDDState σ δ) :=
  if s.mode_before_drift then
    let y := ops.predict s.low_diversity_learner x
    Except.ok (y, { s with y_pred := some y })
  else
    match s.old_low_diversity_learner, s.old_high_diversity_learner with
    | some hol, some hoh =>
      let sum_acc := s.metric_nl.acc + s.metric_ol.acc * s.W + s.metric_oh.acc
      let wnl := s.metric_nl.acc / sum_acc
      let wol := s.metric_ol.acc * s.W / sum_acc
      let woh := s.metric_oh.acc / sum_acc
      let y := weightedMajority ops x s.low_diversity_learner hol hoh wnl wol woh
      Except.ok (y, { s with wnl := wnl, wol := wol, woh := woh, y_pred := some y })
    | _, _ => Except.error DDDError.notReady

/-- First part of DDD.__drift_detection (ddd.py lines 223-227): metric_nl is
updated with the stored prediction, metric_nh with a fresh prediction of the
new-high learner, and, when after drift, metric_oh and metric_ol with fresh
predictions of the old learners; all four updates pass the drift flag of the
previous step. -/
noncomputable def DDDState.updateMetrics {X σ δ : Type} (ops : LearnerOps X σ)
    (s : DDDState σ δ) (x : X) (y_true yp : List ℤ) :
    Except DDDError (DDDState σ δ) :=
  if s.mode_before_drift then
    Except.ok { s with
      metric_nl := s.metric_nl.update yp y_true s.drift,
      metric_nh := s.metric_nh.update (ops.predict s.high_diversity_learner x) y_true s.drift }
  else
    match s.old_high_diversity_learner, s.old_low_diversity_learner with
    | some hoh, some hol =>
      Except.ok { s with
        metric_nl := s.metric_nl.update yp y_true s.drift,
        metric_nh := s.metric_nh.update (ops.predict s.high_diversity_learner x) y_true s.drift,
        metric_oh := s.metric_oh.update (ops.predict hoh x) y_true s.drift,
        metric_ol := s.metric_ol.update (ops.predict hol x) y_true s.drift }
    | _, _ => Except.error DDDError.notReady

/-- Promotion on a detected drift (ddd.py lines 232-254): old_low becomes
new_low (and metric_ol becomes metric_nl) when before drift or when the
new-low accuracy beats the old-high accuracy, else old_low retains the
previous old_high slot value (and metric_ol becomes metric_oh); old_high
unconditionally becomes new_high and metric_oh becomes metric_nh; fresh
learners and fresh metrics fill the new slots and the mode becomes
after-drift. -/
def DDDState.promote {σ δ : Type} (s : DDDState σ δ) : DDDState σ δ :=
  let chosen : Option σ × PrequentialMetrics :=
    if s.mode_before_drift = true ∨
       (s.mode_before_drift = false ∧ s.metric_nl.acc > s.metric_oh.acc) then
      (some s.low_diversity_learner, s.metric_nl)
    else
      (s.old_high_diversity_learner, s.metric_oh)
  { s with
    old_low_diversity_learner := chosen.1,
    metric_ol := chosen.2,
    old_high_diversity_learner := some s.high_diversity_learner,
    metric_oh := s.metric_nh,
    low_diversity_learner := s.initLow,
    high_diversity_learner := s.initHigh,
    metric_nl := PrequentialMetrics.init,
    metric_nh := PrequentialMetrics.init,
    mode_before_drift := false }

open Classical in
/-- Reversion check at the end of DDD.__drift_detection (ddd.py lines
256-263): when after drift, either the new-low accuracy beats both old
accuracies and the mode returns to before-drift unchanged, or the old-high
lower confidence bound beats both upper bounds, new_low becomes a copy of
old_high (deepcopy in the source, plain value here), metric_nl a copy of
metric_oh, and the mode returns to before-drift; otherwise nothing changes.
Copying an absent old_high is modelled as notReady. -/
noncomputable def DDDState.reversionCheck {σ δ : Type} (s : DDDState σ δ) :
    Except DDDError (DDDState σ δ) :=
  if s.mode_before_drift then Except.ok s
  else if s.metric_nl.acc > s.metric_oh.acc ∧ s.metric_nl.acc > s.metric_ol.acc then
    Except.ok { s with mode_before_drift := true }
  else if (s.metric_oh.acc : ℝ) - s.metric_oh.std > (s.metric_nl.acc : ℝ) + s.metric_nl.std ∧
          (s.metric_oh.acc : ℝ) - s.metric_oh.std > (s.metric_ol.acc : ℝ) + s.metric_ol.std then
    match s.old_high_diversity_learner with
    | some hoh =>
      Except.ok { s with
        low_diversity_learner := hoh,
        metric_nl := s.metric_oh,
        mode_before_drift := true }
    | none => Except.error DDDError.notReady
  else Except.ok s

/-- The tail of DDD.__drift_detection after the detector has been queried
and its result stored in self.drift (ddd.py lines 232-263): promote when
the stored drift flag is set, then run the reversion check. -/
noncomputable def DDDState.afterDetect {σ δ : Type} (s2 : DDDState σ δ) :
    Except DDDError (DDDState σ δ) :=
  if s2.drift then s2.promote.reversionCheck else s2.reversionCheck

/-- DDD.__drift_detection (ddd.py lines 221-263): update the metrics with
the stored drift flag, query the detector with (y_true, stored y_pred) and
store its boolean in drift and its new internal state in detector, promote
on drift, then run the reversion check. -/
noncomputable def DDDState.driftDetection {X σ δ : Type} (ops : LearnerOps X σ)
    (dops : DetectorOps δ) (s : DDDState σ δ) (x : X) (y_true yp : List ℤ) :
    Except DDDError (DDDState σ δ) :=
  match s.updateMetrics ops x y_true yp with
  | Except.error e => Except.error e
  | Except.ok s1 =>
    DDDState.afterDetect { s1 with
      drift := (dops.detect s1.detector y_true yp).2,
      detector := (dops.detect s1.detector y_true yp).1 }

/-- Fitting part of DDD.update (ddd.py lines 269-273): the new learners are
always fit on the batch; after drift the old learners are fit as well. -/
def DDDState.fitLearners {X σ δ : Type} (ops : LearnerOps X σ)
    (s : DDDState σ δ) (x : X) (y_true : List ℤ) :
    Except DDDError (DDDState σ δ) :=
  if s.mode_before_drift then
    Except.ok { s with
      low_diversity_learner := ops.update s.low_diversity_learner x y_true,
      high_diversity_learner := ops.update s.high_diversity_learner x y_true }
  else
    match s.old_low_diversity_learner, s.old_high_diversity_learner with
    | some hol, some hoh =>
      Except.ok { s with
        low_diversity_learner := ops.update s.low_diversity_learner x y_true,
        high_diversity_learner := ops.update s.high_diversity_learner x y_true,
        old_low_diversity_learner := some (ops.update hol x y_true),
        old_high_diversity_learner := some (ops.update hoh x y_true) }
    | _, _ => Except.error DDDError.notReady

/-- DDD.update (ddd.py lines 265-273): the drift-detection step runs only
when a stored prediction exists, then the learners are fit. -/
noncomputable def DDDState.update {X σ δ : Type} (ops : LearnerOps X σ)
    (dops : DetectorOps δ) (s : DDDState σ δ) (x : X) (y_true : List ℤ) :
    Except DDDError (DDDState σ δ) :=
  match s.y_pred with
  | none => s.fitLearners ops x y_true
  | some yp =>
    match s.driftDetection ops dops x y_true yp with
    | Except.error e => Except.error e
    | Except.ok s1 => s1.fitLearners ops x y_true

/-- States reachable from a freshly constructed controller through any
sequence of predict and update calls that do not raise. -/
inductive Reachable {X σ δ : Type} (ops : LearnerOps X σ) (dops : DetectorOps δ) :
    DDDState σ δ → Prop where
  | start (W : ℚ) (l h : σ) (d : δ) : Reachable ops dops (DDDState.mkInit W l h d)
  | stepPredict {s s' : DDDState σ δ} (x : X) (y : List ℤ) :
      Reachable ops dops s → s.predict ops x = Except.ok (y, s') →
      Reachable ops dops s'
  | stepUpdate {s s' : DDDState σ δ} (x : X) (y_true : List ℤ) :
      Reachable ops dops s → s.update ops dops x y_true = Except.ok s' →
      Reachable ops dops s'

/-- The ready invariant: after drift both old populations are populated. -/
def DDDState.ReadyInv {σ δ : Type} (s : DDDState σ δ) : Prop :=
  s.mode_before_drift = false →
    s.old_low_diversity_learner.isSome = true ∧
    s.old_high_diversity_learner.isSome = true

/-- The invariant of PrequentialMetrics: std is the square root of var and
the drift time never exceeds the current time. -/
def PrequentialMetrics.Inv (m : PrequentialMetrics) : Prop :=
  m.std = Real.sqrt m.var ∧ m.t_drift ≤ m.t

/-- The samples a pass of DiversityWrapper.__create_diversity selects:
the entries whose remaining replication count is positive
(X[np.where(k > 0)]). -/
def selectByK {α : Type} (k : List ℕ) (l : List α) : List α :=
  (List.zip k l).filterMap (fun p => if 0 < p.1 then some p.2 else none)

/-- Inner loop of DiversityWrapper.__create_diversity (ddd.py lines 43-61):
while some replication count is positive, append every sample with a
positive count once, then decrement all counts.  The Poisson draw k is an
explicit argument (the spec asks for an explicit seedable generator); the
outer all-zero retry of the source corresponds to calling this with a draw
that has at least one positive count. -/
def diversityPasses (X : List (List ℚ)) (y : List ℤ) (k : List ℕ) :
    List (List ℚ) × List ℤ :=
  if h : ∃ n ∈ k, 0 < n then
    (selectByK k X ++ (diversityPasses X y (k.map (fun n => n - 1))).1,
     selectByK k y ++ (diversityPasses X y (k.map (fun n => n - 1))).2)
  else ([], [])
termination_by k.sum
decreasing_by
  have h2 := List.sum_lt_sum (l := k) (fun n => n - 1) id
    (fun i _ => Nat.sub_le i 1)
    (by obtain ⟨n, hn, hp⟩ := h; exact ⟨n, hn, by simp only [id]; omega⟩)
  simpa using h2

/-- One all-zero feature row of dimensionality D (np.zeros((1, D))). -/
def zeroRow (D : ℕ) : List ℚ := List.replicate D 0

/-- DiversityWrapper.__preprocess_X_and_y_fit (ddd.py lines 64-80): when the
number of distinct labels of the batch equals the number of known classes
the batch is returned unchanged, else one all-zero row labelled with each
class missing from the batch is appended (the loop of the source checks
each class against the distinct labels of the original batch). -/
def preprocessFit (list_classes : List ℤ) (D : ℕ) (X : List (List ℚ))
    (y : List ℤ) : List (List ℚ) × List ℤ :=
  let y_values := y.dedup
  if y_values.length = list_classes.length then (X, y)
  else
    let missing := list_classes.filter (fun v => decide (v ∉ y_values))
    (X ++ missing.map (fun _ => zeroRow D), y ++ missing)

/-- DiversityWrapper state (ddd.py lines 11-31): the resampling rate, the
wrapped base estimator (abstract carrier β), the fitted flag (the source
never sets it to True) and the known class list. -/
structure DiversityWrapper (β : Type) where
  lambda_diversity : ℚ
  base_estimator : β
  fitted : Bool
  list_classes : List ℤ

/-- The training set DiversityWrapper.update passes to the wrapped fit:
the resampled batch after the class-coverage patch. -/
def DiversityWrapper.trainingSet {β : Type} (w : DiversityWrapper β) (D : ℕ)
    (X : List (List ℚ)) (y : List ℤ) (k : List ℕ) : List (List ℚ) × List ℤ :=
  preprocessFit w.list_classes D (diversityPasses X y k).1 (diversityPasses X y k).2

/-- DiversityWrapper.update (ddd.py lines 82-86): fit the wrapped estimator
on the resampled, class-coverage-patched batch.  The fit routine of the
base estimator is the abstract argument fit. -/
def DiversityWrapper.update {β : Type} (fit : β → List (List ℚ) → List ℤ → β)
    (w : DiversityWrapper β) (D : ℕ) (X : List (List ℚ)) (y : List ℤ)
    (k : List ℕ) : DiversityWrapper β :=
  let ts := w.trainingSet D X y k
  { w with base_estimator := fit w.base_estimator ts.1 ts.2 }

/-- Detector selection in DDD.__init__ (ddd.py lines 147-155): the None
check picks the DDM default factory, but line 155 then unconditionally
calls the original drift_detector argument, so the value the None branch
assigned is discarded; passing None calls None() and raises TypeError. -/
def initDetector {Δ : Type} (defaultFactory : Unit → Δ)
    (drift_detector : Option (Unit → Δ)) : Except DDDError Δ :=
  let _ := drift_detector.getD defaultFactory
  match drift_detector with
  | none => Except.error DDDError.typeError
  | some f => Except.ok (f ())

/-- Stub learner over trivial carriers, used to instantiate the abstract
capabilities at concrete inputs. -/
def stubOps : LearnerOps Unit Unit :=
  { predict := fun _ _ => [0],
    predictProba := fun _ _ => Scores.one [1],
    update := fun s _ _ => s }

/-- Stub detector that never reports drift. -/
def stubDet : DetectorOps Unit := { detect := fun d _ _ => (d, false) }

/-- Stub detector that always reports drift. -/
def stubDetTrue : DetectorOps Unit := { detect := fun d _ _ => (d, true) }

/-- A metrics record with accuracy one half and zero variance. -/
def halfMetric : PrequentialMetrics :=
  { acc := 1/2, var := 0, std := 0, t := 1, t_drift := 0 }

/-- A concrete after-drift controller state used for concrete evaluations:
both old populations are present, the old metrics have accuracy one half
and the new-low metrics are fresh (accuracy one). -/
def revState : DDDState Unit Unit :=
  { DDDState.mkInit 1 () () () with
    mode_before_drift := false,
    old_low_diversity_learner := some (),
    old_high_diversity_learner := some (),
    metric_oh := halfMetric,
    metric_ol := halfMetric }

/-- A stub diversity wrapper over classes 0 and 1. -/
def stubWrapper : DiversityWrapper Unit :=
  { lambda_diversity := 1, base_estimator := (), fitted := false,
    list_classes := [0, 1] }

/-- Claim C5: for every update call with equal-length batches of length
n at least 1, t grows by exactly n; on drift the accuracy becomes the batch
accuracy (#correct)/n, var becomes acc*(1-acc)/n and t_drift becomes the new
t; otherwise, with denom = t - t_drift + 1 over the updated t, the accuracy
moves by (batch_acc - acc)/denom and var becomes acc*(1-acc)/denom. -/
theorem prequential_update_spec (m : PrequentialMetrics) (yp yt : List ℤ)
    (d : Bool) (hlen : yp.length = yt.length) (hn : 1 ≤ yp.length) :
    (m.update yp yt d).t = m.t + yp.length ∧
    (d = true →
      (m.update yp yt d).acc = (countCorrect yp yt : ℚ) / (yp.length : ℚ) ∧
      (m.update yp yt d).var =
        (m.update yp yt d).acc * (1 - (m.update yp yt d).acc) / (yp.length : ℚ) ∧
      (m.update yp yt d).t_drift = (m.update yp yt d).t) ∧
    (d = false →
      (m.update yp yt d).acc =
        m.acc + ((countCorrect yp yt : ℚ) / (yp.length : ℚ) - m.acc) /
          (((m.t + yp.length : ℕ) : ℚ) - (m.t_drift : ℚ) + 1) ∧
      (m.update yp yt d).var =
        (m.update yp yt d).acc * (1 - (m.update yp yt d).acc) /
          (((m.t + yp.length : ℕ) : ℚ) - (m.t_drift : ℚ) + 1) ∧
      (m.update yp yt d).t_drift = m.t_drift) := by
  cases d <;> simp [PrequentialMetrics.update]

/-- Witness for claim C5: the hypotheses hold and the theorem applies at a
concrete singleton batch. -/
theorem prequential_update_spec_witness :
    (PrequentialMetrics.init.update [0] [0] true).t =
      PrequentialMetrics.init.t + ([0] : List ℤ).length :=
  (prequential_update_spec PrequentialMetrics.init [0] [0] true rfl
    (by decide)).1

/-- Claim C6: the invariant std = sqrt(var) and t_drift less-or-equal t
holds after construction and is preserved by every update; hence the
divisor t - t_drift + 1 of the non-drift branch (over the updated t) is at
least 1, so it cannot be zero. -/
theorem prequential_inv_spec :
    PrequentialMetrics.init.Inv ∧
    (∀ (m : PrequentialMetrics) (yp yt : List ℤ) (d : Bool),
      m.Inv → (m.update yp yt d).Inv) ∧
    (∀ (m : PrequentialMetrics) (yp : List ℤ), m.t_drift ≤ m.t →
      (1 : ℚ) ≤ ((m.t + yp.length : ℕ) : ℚ) - (m.t_drift : ℚ) + 1) := by
  refine ⟨⟨by simp [PrequentialMetrics.init], le_refl 0⟩, ?_, ?_⟩
  · intro m yp yt d hm
    cases d
    · exact ⟨rfl, le_trans hm.2 (Nat.le_add_right m.t yp.length)⟩
    · exact ⟨rfl, le_refl _⟩
  · intro m yp hm
    have h : (m.t_drift : ℚ) ≤ ((m.t + yp.length : ℕ) : ℚ) := by
      exact_mod_cast le_trans hm (Nat.le_add_right m.t yp.length)
    linarith

/-- Witness for claim C6: the invariant transfers from the fresh metrics to
an updated one. -/
theorem prequential_inv_spec_witness :
    (PrequentialMetrics.init.update [0] [0] false).Inv :=
  prequential_inv_spec.2.1 PrequentialMetrics.init [0] [0] false
    prequential_inv_spec.1

/-- Claim C9: under the metrics invariant, the checked update fails exactly
on an empty batch, with invalidInput, and succeeds (returning the plain
update) on every batch of length at least 1. -/
theorem prequential_updateE_spec (m : PrequentialMetrics) (yp yt : List ℤ)
    (d : Bool) (hinv : m.t_drift ≤ m.t) (hlen : yp.length = yt.length) :
    (yp.length = 0 → m.updateE yp yt d = Except.error DDDError.invalidInput) ∧
    (1 ≤ yp.length → m.updateE yp yt d = Except.ok (m.update yp yt d)) := by
  constructor
  · intro h0
    simp [PrequentialMetrics.updateE, qdivE, h0]
  · intro h1
    have hn : ((yp.length : ℚ)) ≠ 0 := by
      exact_mod_cast Nat.one_le_iff_ne_zero.mp h1
    have hmono : (m.t_drift : ℚ) ≤ ((m.t + yp.length : ℕ) : ℚ) := by
      exact_mod_cast le_trans hinv (Nat.le_add_right m.t yp.length)
    have hd : ((m.t + yp.length : ℕ) : ℚ) - (m.t_drift : ℚ) + 1 ≠ 0 := by
      intro heq; linarith
    push_cast at hd
    cases d <;>
      simp [PrequentialMetrics.updateE, PrequentialMetrics.update, qdivE, hn, hd]

/-- Witness for claim C9: the empty batch fails with invalidInput and a
singleton batch succeeds. -/
theorem prequential_updateE_spec_witness :
    PrequentialMetrics.init.updateE [] [] true =
      Except.error DDDError.invalidInput :=
  (prequential_updateE_spec PrequentialMetrics.init [] [] true
    (le_refl 0) rfl).1 rfl

/-- Claim C10: the constructor detector selection raises on a None
drift_detector argument instead of using the default factory, and for a
supplied factory the detector is the result of calling that factory, so the
default-detector fallback is never effective. -/
theorem init_detector_spec {Δ : Type} (defaultFactory : Unit → Δ) :
    initDetector defaultFactory none = Except.error DDDError.typeError ∧
    ∀ f : Unit → Δ, initDetector defaultFactory (some f) = Except.ok (f ()) :=
  ⟨rfl, fun f => rfl⟩

/-- Claim C1: before drift, predict returns the new-low prediction directly
and stores it; after drift (with the old populations present) it computes
S = acc_nl + W*acc_ol + acc_oh, the normalized weights acc_nl/S,
W*acc_ol/S, acc_oh/S, takes the weighted sum of the predict_proba scores of
new-low, old-low and old-high (new-high excluded), converts the scores to
labels (threshold at 0 when one-dimensional, arg-max otherwise) and stores
the prediction. -/
theorem predict_spec {X σ δ : Type} (ops : LearnerOps X σ) (s : DDDState σ δ)
    (x : X) :
    (s.mode_before_drift = true →
      s.predict ops x =
        Except.ok (ops.predict s.low_diversity_learner x,
          { s with y_pred := some (ops.predict s.low_diversity_learner x) })) ∧
    (∀ hol hoh, s.mode_before_drift = false →
      s.old_low_diversity_learner = some hol →
      s.old_high_diversity_learner = some hoh →
      s.predict ops x =
        (let S := s.metric_nl.acc + s.W * s.metric_ol.acc + s.metric_oh.acc
         let w_nl := s.metric_nl.acc / S
         let w_ol := s.W * s.metric_ol.acc / S
         let w_oh := s.metric_oh.acc / S
         let y := scoresToSingleLabel
           (Scores.add
             (Scores.add (Scores.smul w_nl (ops.predictProba s.low_diversity_learner x))
                         (Scores.smul w_ol (ops.predictProba hol x)))
             (Scores.smul w_oh (ops.predictProba hoh x)))
         Except.ok (y,
           { s with
             wnl := w_nl,
             wol := w_ol,
             woh := w_oh,
             y_pred := some y }))) := by
  constructor
  · intro hm
    simp [DDDState.predict, hm]
  · intro hol hoh hm h1 h2
    simp only [DDDState.predict, hm, h1, h2, weightedMajority, Bool.false_eq_true,
      if_false]
    rw [mul_comm s.metric_ol.acc s.W]

/-- Witness for claim C1: the before-drift branch applied to a fresh
controller with the stub learner. -/
theorem predict_spec_witness :
    (DDDState.mkInit (δ := Unit) 1 () () ()).predict stubOps () =
      Except.ok ([0],
        { DDDState.mkInit (δ := Unit) 1 () () () with y_pred := some [0] }) := by
  have h := (predict_spec stubOps (DDDState.mkInit 1 () () ()) ()).1 rfl
  simpa [stubOps] using h

/-- Claim C3: in the after-drift mode, when acc_nl strictly beats both
acc_oh and acc_ol the mode returns to before-drift with no slot
reassignment; else when the old-high lower confidence bound acc-std beats
both new-low and old-low upper bounds acc+std, new_low becomes the old-high
learner value (a deep copy in the source), metric_nl a copy of metric_oh,
and the mode returns to before-drift; when neither condition holds the
state is unchanged and stays after-drift. -/
theorem reversion_spec {σ δ : Type} (s : DDDState σ δ)
    (hmode : s.mode_before_drift = false) :
    (s.metric_nl.acc > s.metric_oh.acc ∧ s.metric_nl.acc > s.metric_ol.acc →
      s.reversionCheck = Except.ok { s with mode_before_drift := true }) ∧
    (∀ hoh : σ,
      ¬(s.metric_nl.acc > s.metric_oh.acc ∧ s.metric_nl.acc > s.metric_ol.acc) →
      ((s.metric_oh.acc : ℝ) - s.metric_oh.std >
         (s.metric_nl.acc : ℝ) + s.metric_nl.std ∧
       (s.metric_oh.acc : ℝ) - s.metric_oh.std >
         (s.metric_ol.acc : ℝ) + s.metric_ol.std) →
      s.old_high_diversity_learner = some hoh →
      s.reversionCheck = Except.ok { s with
        low_diversity_learner := hoh,
        metric_nl := s.metric_oh,
        mode_before_drift := true }) ∧
    (¬(s.metric_nl.acc > s.metric_oh.acc ∧ s.metric_nl.acc > s.metric_ol.acc) →
     ¬((s.metric_oh.acc : ℝ) - s.metric_oh.std >
         (s.metric_nl.acc : ℝ) + s.metric_nl.std ∧
       (s.metric_oh.acc : ℝ) - s.metric_oh.std >
         (s.metric_ol.acc : ℝ) + s.metric_ol.std) →
      s.reversionCheck = Except.ok s) := by
  refine ⟨?_, ?_, ?_⟩ <;> unfold DDDState.reversionCheck
  · intro h1
    rw [if_neg (by simp [hmode]), if_pos h1]
  · intro hoh h1 h2 he
    rw [if_neg (by simp [hmode]), if_neg h1, if_pos h2, he]
  · intro h1 h2
    rw [if_neg (by simp [hmode]), if_neg h1, if_neg h2]

/-- Witness for claim C3: at a concrete after-drift state whose fresh
new-low metrics beat both old accuracies, the mode reverts. -/
theorem reversion_spec_witness :
    revState.reversionCheck =
      Except.ok { revState with mode_before_drift := true } :=
  (reversion_spec revState rfl).1
    (by norm_num [revState, halfMetric, DDDState.mkInit, PrequentialMetrics.init])

/-- The metric-update phase changes only the four metric trackers. -/
theorem updateMetrics_frame {X σ δ : Type} (ops : LearnerOps X σ)
    (s s1 : DDDState σ δ) (x : X) (y_true yp : List ℤ)
    (h : s.updateMetrics ops x y_true yp = Except.ok s1) :
    s1.mode_before_drift = s.mode_before_drift ∧
    s1.drift = s.drift ∧
    s1.detector = s.detector ∧
    s1.old_low_diversity_learner = s.old_low_diversity_learner ∧
    s1.old_high_diversity_learner = s.old_high_diversity_learner ∧
    s1.low_diversity_learner = s.low_diversity_learner ∧
    s1.high_diversity_learner = s.high_diversity_learner ∧
    s1.y_pred = s.y_pred := by
  unfold DDDState.updateMetrics at h
  by_cases hmode : s.mode_before_drift = true
  · rw [if_pos hmode] at h
    simp only [Except.ok.injEq] at h
    subst h
    simp
  · rw [if_neg hmode] at h
    cases hH : s.old_high_diversity_learner with
    | none => rw [hH] at h; simp at h
    | some hoh =>
      cases hL : s.old_low_diversity_learner with
      | none => rw [hH, hL] at h; simp at h
      | some hol =>
        rw [hH, hL] at h
        simp only [Except.ok.injEq] at h
        subst h
        simp

/-- Promotion leaves the drift flag, detector, stored prediction and mode
bookkeeping fields as stated, and always fills both old slots from the
promoted populations. -/
theorem promote_frame {σ δ : Type} (s : DDDState σ δ) :
    s.promote.drift = s.drift ∧ s.promote.detector = s.detector ∧
    s.promote.y_pred = s.y_pred ∧ s.promote.mode_before_drift = false ∧
    s.promote.old_high_diversity_learner = some s.high_diversity_learner :=
  ⟨rfl, rfl, rfl, rfl, rfl⟩

/-- Every successful reversion check leaves the drift flag, the detector,
the old slots and the stored prediction unchanged. -/
theorem reversionCheck_ok_frame {σ δ : Type} (s r : DDDState σ δ)
    (h : s.reversionCheck = Except.ok r) :
    r.drift = s.drift ∧ r.detector = s.detector ∧
    r.old_low_diversity_learner = s.old_low_diversity_learner ∧
    r.old_high_diversity_learner = s.old_high_diversity_learner ∧
    r.y_pred = s.y_pred := by
  unfold DDDState.reversionCheck at h
  split at h
  · simp only [Except.ok.injEq] at h; subst h; simp
  · split at h
    · simp only [Except.ok.injEq] at h; subst h; simp
    · split at h
      · split at h
        · simp only [Except.ok.injEq] at h; subst h; simp
        · simp at h
      · simp only [Except.ok.injEq] at h; subst h; simp

/-- Claim C4: the drift-detection step runs only when a stored prediction
exists (update without one goes straight to fitting); the controller starts
with the drift flag false; within the step the metric trackers are updated
with the drift flag of the previous step, and the drift flag of the
resulting state is the detector verdict on (y_true, stored y_pred). -/
theorem update_lag_spec {X σ δ : Type} (ops : LearnerOps X σ)
    (dops : DetectorOps δ) (s : DDDState σ δ) (x : X) (y_true : List ℤ) :
    (∀ (W : ℚ) (l h : σ) (d : δ), (DDDState.mkInit W l h d).drift = false) ∧
    (s.y_pred = none → s.update ops dops x y_true = s.fitLearners ops x y_true) ∧
    (∀ (yp : List ℤ) (s1 : DDDState σ δ),
      s.updateMetrics ops x y_true yp = Except.ok s1 →
      s1.metric_nl = s.metric_nl.update yp y_true s.drift ∧
      s1.metric_nh =
        s.metric_nh.update (ops.predict s.high_diversity_learner x) y_true s.drift ∧
      (∀ hol hoh, s.mode_before_drift = false →
        s.old_low_diversity_learner = some hol →
        s.old_high_diversity_learner = some hoh →
        s1.metric_ol = s.metric_ol.update (ops.predict hol x) y_true s.drift ∧
        s1.metric_oh = s.metric_oh.update (ops.predict hoh x) y_true s.drift)) ∧
    (∀ (yp : List ℤ) (s2 : DDDState σ δ), s.y_pred = some yp →
      s.driftDetection ops dops x y_true yp = Except.ok s2 →
      s2.drift = (dops.detect s.detector y_true yp).2) := by
  refine ⟨fun W l h d => rfl, ?_, ?_, ?_⟩
  · intro hnone
    simp [DDDState.update, hnone]
  · intro yp s1 h
    unfold DDDState.updateMetrics at h
    by_cases hmode : s.mode_before_drift = true
    · rw [if_pos hmode] at h
      simp only [Except.ok.injEq] at h
      subst h
      exact ⟨rfl, rfl, fun hol hoh hm _ _ => absurd hmode (by simp [hm])⟩
    · rw [if_neg hmode] at h
      cases hH : s.old_high_diversity_learner with
      | none => rw [hH] at h; simp at h
      | some hoh =>
        cases hL : s.old_low_diversity_learner with
        | none => rw [hH, hL] at h; simp at h
        | some hol =>
          rw [hH, hL] at h
          simp only [Except.ok.injEq] at h
          subst h
          refine ⟨rfl, rfl, ?_⟩
          intro hol2 hoh2 hm h1 h2
          cases h1
          cases h2
          exact ⟨rfl, rfl⟩
  · intro yp s2 hyp h
    unfold DDDState.driftDetection at h
    split at h
    · simp at h
    · rename_i s1 heq
      have hfr := updateMetrics_frame ops s s1 x y_true yp heq
      unfold DDDState.afterDetect at h
      split at h
      · rename_i hdr
        have h1 := (reversionCheck_ok_frame _ _ h).1
        have h2 := (promote_frame ({ s1 with
          drift := (dops.detect s1.detector y_true yp).2,
          detector := (dops.detect s1.detector y_true yp).1 })).1
        rw [h1, h2, ← hfr.2.2.1]
      · rename_i hdr
        have h1 := (reversionCheck_ok_frame _ _ h).1
        rw [h1, ← hfr.2.2.1]

/-- Witness for claim C4: a freshly constructed controller has no stored
prediction, so its update skips drift detection and only fits. -/
theorem update_lag_spec_witness :
    (DDDState.mkInit (δ := Unit) 1 () () ()).update stubOps stubDet () [0] =
      (DDDState.mkInit (δ := Unit) 1 () () ()).fitLearners stubOps () [0] :=
  (update_lag_spec stubOps stubDet (DDDState.mkInit 1 () () ()) () [0]).2.1 rfl

/-- Claim C2: when the detector reports drift, the drift step routes the
metric-updated state through promote (with the fresh drift flag and
detector state stored); and promote assigns old_low := new_low with
metric_ol := metric_nl exactly when before-drift or (after-drift and
acc_nl > acc_oh), else old_low := old_high with metric_ol := metric_oh;
in either case old_high := new_high, metric_oh := metric_nh, fresh learners
and fresh metrics fill the new slots, and the mode becomes after-drift. -/
theorem drift_promotion_spec {X σ δ : Type} (ops : LearnerOps X σ)
    (dops : DetectorOps δ) (s : DDDState σ δ) (x : X) (y_true yp : List ℤ)
    (det2 : δ) (hdet : dops.detect s.detector y_true yp = (det2, true)) :
    (∀ s1 : DDDState σ δ, s.updateMetrics ops x y_true yp = Except.ok s1 →
      s.driftDetection ops dops x y_true yp =
        ({ s1 with drift := true, detector := det2 }).promote.reversionCheck) ∧
    (∀ p : DDDState σ δ,
      ((p.mode_before_drift = true ∨
        (p.mode_before_drift = false ∧ p.metric_nl.acc > p.metric_oh.acc)) →
        p.promote = { p with
          old_low_diversity_learner := some p.low_diversity_learner,
          metric_ol := p.metric_nl,
          old_high_diversity_learner := some p.high_diversity_learner,
          metric_oh := p.metric_nh,
          low_diversity_learner := p.initLow,
          high_diversity_learner := p.initHigh,
          metric_nl := PrequentialMetrics.init,
          metric_nh := PrequentialMetrics.init,
          mode_before_drift := false }) ∧
      (¬(p.mode_before_drift = true ∨
         (p.mode_before_drift = false ∧ p.metric_nl.acc > p.metric_oh.acc)) →
        p.promote = { p with
          old_low_diversity_learner := p.old_high_diversity_learner,
          metric_ol := p.metric_oh,
          old_high_diversity_learner := some p.high_diversity_learner,
          metric_oh := p.metric_nh,
          low_diversity_learner := p.initLow,
          high_diversity_learner := p.initHigh,
          metric_nl := PrequentialMetrics.init,
          metric_nh := PrequentialMetrics.init,
          mode_before_drift := false })) := by
  constructor
  · intro s1 heq
    have hd : s1.detector = s.detector :=
      (updateMetrics_frame ops s s1 x y_true yp heq).2.2.1
    unfold DDDState.driftDetection
    rw [heq]
    simp only [hd, hdet]
    unfold DDDState.afterDetect
    simp
  · intro p
    constructor
    · intro hc
      unfold DDDState.promote
      rw [if_pos hc]
    · intro hc
      unfold DDDState.promote
      rw [if_neg hc]

/-- Witness for claim C2: promotion applied to a fresh (before-drift)
controller moves the populations as stated; the route through promote is
exercised with the always-drift stub detector. -/
theorem drift_promotion_spec_witness :
    (DDDState.mkInit (δ := Unit) 1 () () ()).promote =
      { DDDState.mkInit (δ := Unit) 1 () () () with
        old_low_diversity_learner := some (),
        metric_ol := PrequentialMetrics.init,
        old_high_diversity_learner := some (),
        metric_oh := PrequentialMetrics.init,
        low_diversity_learner := (),
        high_diversity_learner := (),
        metric_nl := PrequentialMetrics.init,
        metric_nh := PrequentialMetrics.init,
        mode_before_drift := false } :=
  ((drift_promotion_spec stubOps stubDetTrue (DDDState.mkInit 1 () () ()) ()
      [0] [0] () rfl).2 (DDDState.mkInit 1 () () ())).1 (Or.inl rfl)

/-- The metric-update phase preserves the ready invariant. -/
theorem updateMetrics_inv {X σ δ : Type} (ops : LearnerOps X σ)
    (s s1 : DDDState σ δ) (x : X) (y_true yp : List ℤ)
    (h : s.updateMetrics ops x y_true yp = Except.ok s1)
    (hs : s.ReadyInv) : s1.ReadyInv := by
  have hfr := updateMetrics_frame ops s s1 x y_true yp h
  unfold DDDState.ReadyInv at hs ⊢
  intro hm
  rw [hfr.1] at hm
  rw [hfr.2.2.2.1, hfr.2.2.2.2.1]
  exact hs hm

/-- Promotion preserves the ready invariant: it fills old_high from the
current new_high, and fills old_low either from the current new_low or from
the previous old_high, which the invariant guarantees present. -/
theorem promote_inv {σ δ : Type} (s : DDDState σ δ) (hs : s.ReadyInv) :
    s.promote.ReadyInv := by
  unfold DDDState.ReadyInv at hs ⊢
  intro _
  unfold DDDState.promote
  by_cases hc : s.mode_before_drift = true ∨
      (s.mode_before_drift = false ∧ s.metric_nl.acc > s.metric_oh.acc)
  · rw [if_pos hc]
    simp
  · rw [if_neg hc]
    push_neg at hc
    have hm : s.mode_before_drift = false := by
      cases hb : s.mode_before_drift
      · rfl
      · exact absurd hb hc.1
    refine ⟨?_, by simp⟩
    simpa using (hs hm).2

/-- A successful reversion check preserves the ready invariant. -/
theorem reversionCheck_inv {σ δ : Type} (s r : DDDState σ δ)
    (h : s.reversionCheck = Except.ok r) (hs : s.ReadyInv) : r.ReadyInv := by
  unfold DDDState.ReadyInv at hs ⊢
  unfold DDDState.reversionCheck at h
  split at h
  · simp only [Except.ok.injEq] at h
    subst h
    exact hs
  · split at h
    · simp only [Except.ok.injEq] at h
      subst h
      intro hm
      simp at hm
    · split at h
      · split at h
        · simp only [Except.ok.injEq] at h
          subst h
          intro hm
          simp at hm
        · simp at h
      · simp only [Except.ok.injEq] at h
        subst h
        exact hs

/-- Successful fitting preserves the ready invariant. -/
theorem fitLearners_inv {X σ δ : Type} (ops : LearnerOps X σ)
    (s r : DDDState σ δ) (x : X) (y_true : List ℤ)
    (h : s.fitLearners ops x y_true = Except.ok r) (hs : s.ReadyInv) :
    r.ReadyInv := by
  unfold DDDState.ReadyInv at hs ⊢
  unfold DDDState.fitLearners at h
  by_cases hmode : s.mode_before_drift = true
  · rw [if_pos hmode] at h
    simp only [Except.ok.injEq] at h
    subst h
    intro hm
    simp at hm
    exact absurd hmode (by simp [hm])
  · rw [if_neg hmode] at h
    cases hL : s.old_low_diversity_learner with
    | none => rw [hL] at h; simp at h
    | some hol =>
      cases hH : s.old_high_diversity_learner with
      | none => rw [hL, hH] at h; simp at h
      | some hoh =>
        rw [hL, hH] at h
        simp only [Except.ok.injEq] at h
        subst h
        intro hm
        simp

/-- The whole drift-detection step preserves the ready invariant. -/
theorem driftDetection_inv {X σ δ : Type} (ops : LearnerOps X σ)
    (dops : DetectorOps δ) (s r : DDDState σ δ) (x : X) (y_true yp : List ℤ)
    (h : s.driftDetection ops dops x y_true yp = Except.ok r)
    (hs : s.ReadyInv) : r.ReadyInv := by
  unfold DDDState.driftDetection at h
  split at h
  · simp at h
  · rename_i s1 heq
    have h1 : s1.ReadyInv := updateMetrics_inv ops s s1 x y_true yp heq hs
    have h2 : ({ s1 with
        drift := (dops.detect s1.detector y_true yp).2,
        detector := (dops.detect s1.detector y_true yp).1 } : DDDState σ δ).ReadyInv := by
      unfold DDDState.ReadyInv at h1 ⊢
      intro hm
      simp only at hm
      simpa using h1 hm
    unfold DDDState.afterDetect at h
    split at h
    · exact reversionCheck_inv _ _ h (promote_inv _ h2)
    · exact reversionCheck_inv _ _ h h2

/-- Predict preserves the ready invariant (it never changes the mode or the
old slots). -/
theorem predict_inv {X σ δ : Type} (ops : LearnerOps X σ) (s r : DDDState σ δ)
    (x : X) (y : List ℤ) (h : s.predict ops x = Except.ok (y, r))
    (hs : s.ReadyInv) : r.ReadyInv := by
  unfold DDDState.ReadyInv at hs ⊢
  unfold DDDState.predict at h
  by_cases hmode : s.mode_before_drift = true
  · rw [if_pos hmode] at h
    simp only [Except.ok.injEq, Prod.mk.injEq] at h
    obtain ⟨-, h⟩ := h
    subst h
    intro hm
    simp at hm
    exact absurd hmode (by simp [hm])
  · rw [if_neg hmode] at h
    cases hL : s.old_low_diversity_learner with
    | none => rw [hL] at h; simp at h
    | some hol =>
      cases hH : s.old_high_diversity_learner with
      | none => rw [hL, hH] at h; simp at h
      | some hoh =>
        rw [hL, hH] at h
        simp only [Except.ok.injEq, Prod.mk.injEq] at h
        obtain ⟨-, h⟩ := h
        subst h
        intro hm
        constructor <;> simp [hL, hH]

/-- Update preserves the ready invariant. -/
theorem update_inv {X σ δ : Type} (ops : LearnerOps X σ) (dops : DetectorOps δ)
    (s r : DDDState σ δ) (x : X) (y_true : List ℤ)
    (h : s.update ops dops x y_true = Except.ok r) (hs : s.ReadyInv) :
    r.ReadyInv := by
  unfold DDDState.update at h
  split at h
  · exact fitLearners_inv ops s r x y_true h hs
  · rename_i yp hyp
    split at h
    · simp at h
    · rename_i s1 heq
      exact fitLearners_inv ops s1 r x y_true h
        (driftDetection_inv ops dops s s1 x y_true yp heq hs)

/-- Every reachable controller state satisfies the ready invariant. -/
theorem reachable_inv {X σ δ : Type} (ops : LearnerOps X σ)
    (dops : DetectorOps δ) {s : DDDState σ δ} (h : Reachable ops dops s) :
    s.ReadyInv := by
  induction h with
  | start W l hh d =>
    unfold DDDState.ReadyInv
    intro hm
    simp [DDDState.mkInit] at hm
  | stepPredict x y hr hstep ih => exact predict_inv _ _ _ _ _ hstep ih
  | stepUpdate x y_true hr hstep ih => exact update_inv _ _ _ _ _ _ hstep ih

/-- Under the ready invariant predict cannot fail with notReady. -/
theorem predict_ready {X σ δ : Type} (ops : LearnerOps X σ) (s : DDDState σ δ)
    (x : X) (hs : s.ReadyInv) :
    s.predict ops x ≠ Except.error DDDError.notReady := by
  unfold DDDState.predict
  by_cases hm : s.mode_before_drift = true
  · rw [if_pos hm]
    simp
  · have hm2 : s.mode_before_drift = false := by
      cases hb : s.mode_before_drift
      · rfl
      · exact absurd hb hm
    rw [if_neg hm]
    obtain ⟨h1, h2⟩ := hs hm2
    obtain ⟨hol, e1⟩ := Option.isSome_iff_exists.mp h1
    obtain ⟨hoh, e2⟩ := Option.isSome_iff_exists.mp h2
    rw [e1, e2]
    simp

/-- Claim C7: the controller starts before-drift with both old slots
absent; every reachable state satisfies the ready invariant (after drift
both old populations are present), and therefore predict can never fail
with the not-ready fault on a reachable state. -/
theorem state_machine_spec {X σ δ : Type} (ops : LearnerOps X σ)
    (dops : DetectorOps δ) :
    (∀ (W : ℚ) (l h : σ) (d : δ),
      (DDDState.mkInit W l h d).mode_before_drift = true ∧
      (DDDState.mkInit W l h d).old_low_diversity_learner = none ∧
      (DDDState.mkInit W l h d).old_high_diversity_learner = none) ∧
    (∀ s : DDDState σ δ, Reachable ops dops s → s.ReadyInv) ∧
    (∀ (s : DDDState σ δ) (x : X), Reachable ops dops s →
      s.predict ops x ≠ Except.error DDDError.notReady) := by
  refine ⟨fun W l h d => ⟨rfl, rfl, rfl⟩,
    fun s hr => reachable_inv ops dops hr, ?_⟩
  intro s x hr
  exact predict_ready ops s x (reachable_inv ops dops hr)

/-- Witness for claim C7: the fresh controller is reachable and its predict
does not fail with the not-ready fault. -/
theorem state_machine_spec_witness :
    (DDDState.mkInit (δ := Unit) 1 () () ()).predict stubOps () ≠
      Except.error DDDError.notReady :=
  (state_machine_spec stubOps stubDet).2.2 (DDDState.mkInit 1 () () ()) ()
    (Reachable.start 1 () () ())

/-- Every sample a resampling pass selects comes from the original batch. -/
theorem selectByK_mem {α : Type} (k : List ℕ) (l : List α) (a : α)
    (ha : a ∈ selectByK k l) : a ∈ l := by
  unfold selectByK at ha
  simp only [List.mem_filterMap] at ha
  obtain ⟨⟨n, b⟩, hmem, hif⟩ := ha
  have hb := (List.of_mem_zip hmem).2
  by_cases h0 : 0 < n
  · rw [if_pos h0] at hif
    cases hif
    exact hb
  · rw [if_neg h0] at hif
    cases hif

/-- Every label the resampling emits comes from the original batch. -/
theorem diversityPasses_mem (X : List (List ℚ)) (y : List ℤ) (k : List ℕ)
    (l : ℤ) (hl : l ∈ (diversityPasses X y k).2) : l ∈ y := by
  have H : ∀ (N : ℕ) (k2 : List ℕ), k2.sum ≤ N →
      ∀ l2, l2 ∈ (diversityPasses X y k2).2 → l2 ∈ y := by
    intro N
    induction N with
    | zero =>
      intro k2 hk l2 hl2
      rw [diversityPasses] at hl2
      rw [dif_neg ?_] at hl2
      · simp at hl2
      · intro hex
        obtain ⟨n, hn, hp⟩ := hex
        have hle : n ≤ k2.sum :=
          List.single_le_sum (fun x _ => Nat.zero_le x) n hn
        omega
    | succ N ih =>
      intro k2 hk l2 hl2
      rw [diversityPasses] at hl2
      by_cases hex : ∃ n ∈ k2, 0 < n
      · rw [dif_pos hex] at hl2
        simp only [List.mem_append] at hl2
        rcases hl2 with h1 | h2
        · exact selectByK_mem k2 y l2 h1
        · apply ih (k2.map (fun n => n - 1)) ?_ l2 h2
          have hlt : (k2.map (fun n => n - 1)).sum < k2.sum := by
            have hss := List.sum_lt_sum (l := k2) (fun n => n - 1) id
              (fun i _ => Nat.sub_le i 1)
              (by obtain ⟨n, hn, hp⟩ := hex
                  exact ⟨n, hn, by simp only [id]; omega⟩)
            simpa using hss
          omega
      · rw [dif_neg hex] at hl2
        simp at hl2
  exact H k.sum k le_rfl l hl

/-- Claim C8: for a batch whose labels all come from the known class set
(held without duplicates), the training set the wrapper passes to fit
covers every known class: either the resampled batch already has full
distinct-label count, in which case it covers the classes, or a synthetic
row per missing class is appended. -/
theorem class_coverage_spec {β : Type} (w : DiversityWrapper β) (D : ℕ)
    (X : List (List ℚ)) (y : List ℤ) (k : List ℕ)
    (hC : w.list_classes.Nodup) (hy : ∀ l ∈ y, l ∈ w.list_classes)
    (hne : y ≠ []) (hk : ∃ n ∈ k, 0 < n) :
    ∀ c ∈ w.list_classes, c ∈ (w.trainingSet D X y k).2 := by
  intro c hc
  simp only [DiversityWrapper.trainingSet, preprocessFit]
  have hy1 : ∀ l ∈ (diversityPasses X y k).2, l ∈ w.list_classes := fun l hl =>
    hy l (diversityPasses_mem X y k l hl)
  by_cases hlen :
      (diversityPasses X y k).2.dedup.length = w.list_classes.length
  · rw [if_pos hlen]
    have hsub : (diversityPasses X y k).2.dedup.toFinset ⊆
        w.list_classes.toFinset := by
      intro a ha
      simp only [List.mem_toFinset] at ha ⊢
      exact hy1 a (List.dedup_subset (diversityPasses X y k).2 ha)
    have hcard : w.list_classes.toFinset.card ≤
        (diversityPasses X y k).2.dedup.toFinset.card := by
      rw [List.toFinset_card_of_nodup ((diversityPasses X y k).2.nodup_dedup),
        List.toFinset_card_of_nodup hC, hlen]
    have heq := Finset.eq_of_subset_of_card_le hsub hcard
    have hmem : c ∈ (diversityPasses X y k).2.dedup.toFinset := by
      rw [heq]
      simp only [List.mem_toFinset]
      exact hc
    simp only [List.mem_toFinset, List.mem_dedup] at hmem
    exact hmem
  · rw [if_neg hlen]
    by_cases hcy : c ∈ (diversityPasses X y k).2.dedup
    · simp only [List.mem_append]
      exact Or.inl (List.mem_dedup.mp hcy)
    · simp only [List.mem_append, List.mem_filter]
      exact Or.inr ⟨hc, by simpa using hcy⟩

/-- Witness for claim C8 at a concrete batch over classes 0 and 1: class 1
is absent from the batch and is patched into the training labels. -/
theorem class_coverage_spec_witness :
    (1 : ℤ) ∈ (stubWrapper.trainingSet 1 [[5]] [0] [1]).2 :=
  class_coverage_spec stubWrapper 1 [[5]] [0] [1] (by decide) (by decide)
    (by decide) (by decide) 1 (by decide)
